import Mathlib

/-!
Shallow embedding of the FastUI/SQLModel user-management demo
(`src/final/db.py` and `src/final/main.py`).

The persistent store (a single SQLite table of `User` rows keyed by the
integer primary key `id`) is modelled as a list of users in insertion
order.  `Session.get(User, id)` becomes a lookup of the first row with the
given id, an SQL `DELETE` of a row fetched by primary key becomes removal
of every row carrying that id, and the implicit id chosen by SQLite for an
`INTEGER PRIMARY KEY` column on insert-without-id (one more than the
largest id in use, 1 for an empty table) becomes `nextId`.

Each HTTP handler of `main.py` becomes a function from the store (and the
parsed request data) to the new store and/or its response value.  FastUI
component payloads are embedded as an inductive `Component` type; the
`HTTPException(404)` raised by the profile handler becomes `Except.error
404`.
-/

namespace FastUIDemo

/-- A calendar date, as `datetime.date(year, month, day)`. -/
structure Date where
  year : Nat
  month : Nat
  day : Nat
deriving DecidableEq, Repr

/-- `class User(SQLModel, table=True)` from `db.py`:
`id` (integer primary key), `name` (text), `dob` (date). -/
structure User where
  id : Int
  name : String
  dob : Date
deriving DecidableEq, Repr

/-- The database table of users, in insertion (rowid) order. -/
abbrev Store := List User

/-- `session.get(User, uid)`: primary-key lookup, `none` when absent. -/
def Store.get (s : Store) (uid : Int) : Option User :=
  s.find? (fun u => u.id == uid)

/-- The id SQLite assigns to an inserted row whose `INTEGER PRIMARY KEY`
was not supplied: one more than the largest id in use, and 1 when the
table is empty (ids in this application are always positive). -/
def nextId (s : Store) : Int :=
  s.foldl (fun m u => max m u.id) 0 + 1

/-- A FastUI event (`GoToEvent(url=...)` or `BackEvent()`). -/
inductive Event where
  | goto (url : String)
  | back
deriving DecidableEq, Repr

/-- `FormResponse(event=...)` returned by the two POST handlers. -/
structure FormResponse where
  event : Event
deriving DecidableEq, Repr

/-- `DisplayMode` values used by `main.py` (`auto` default, `date`). -/
inductive DisplayMode where
  | auto
  | date
deriving DecidableEq, Repr

/-- `DisplayLookup(field=..., on_click=..., mode=...)`. -/
structure DisplayLookup where
  field : String
  on_click : Option Event
  mode : Option DisplayMode
deriving DecidableEq, Repr

/-- The FastUI components constructed by the handlers in `main.py`. -/
inductive Component where
  | heading (text : String) (level : Nat)
  | paragraph (text : String)
  | textC (text : String)
  | button (text : String)
  | link (components : List Component) (on_click : Option Event)
  | modelForm (submit_url : String) (class_name : Option String)
  | details (data : User)
  | table (data : List User) (columns : List DisplayLookup)
  | div (components : List Component) (class_name : Option String)
  | page (components : List Component)

/-- `class UserForm(BaseModel)`: the validated add-user submission. -/
structure UserForm where
  name : String
  dob : Date
deriving DecidableEq, Repr

/-- `class DeleteUserForm(BaseModel)`: the delete submission. -/
structure DeleteUserForm where
  confirm : Bool
deriving DecidableEq, Repr

/-- The four seed users defined in `lifespan`. -/
def seedUsers : List User :=
  [ ⟨1, "John", ⟨1990, 1, 1⟩⟩,
    ⟨2, "Jack", ⟨1991, 1, 1⟩⟩,
    ⟨3, "Jill", ⟨1992, 1, 1⟩⟩,
    ⟨4, "Jane", ⟨1993, 1, 1⟩⟩ ]

/-- One iteration of the seeding loop in `lifespan`: look up the seed id with `session.get`; skip (`continue`) when present, else add the row. -/
def seedStep (st : Store) (u : User) : Store :=
  match Store.get st u.id with
  | some _ => st
  | none => st ++ [u]

/-- The `lifespan` startup hook: insert each of the four seed users
unless a row with its id already exists, then commit. -/
def lifespan (s : Store) : Store :=
  seedUsers.foldl seedStep s

/-- `GET /api/user/add/`: the static add-user form page. -/
def add_user_page : List Component :=
  [ Component.page
      [ Component.heading "Add User" 2,
        Component.paragraph "Add a user to the system",
        Component.modelForm "/api/user/add/" none ] ]

/-- `POST /api/user/add/` (`add_user`): build a `User` from the submitted
form (id left to the store), insert it, commit, and answer with a
navigation event back to `/`. -/
def add_user (s : Store) (form : UserForm) : Store × FormResponse :=
  let user : User := ⟨nextId s, form.name, form.dob⟩
  (s ++ [user], ⟨Event.goto "/"⟩)

/-- The two table columns of the list view. -/
def usersTableColumns : List DisplayLookup :=
  [ ⟨"name", some (Event.goto "/user/\x7bid\x7d/"), none⟩,
    ⟨"dob", none, some DisplayMode.date⟩ ]

/-- `GET /api/` (`users_table`): fetch all rows and render them. -/
def users_table (s : Store) : List Component :=
  [ Component.page
      [ Component.heading "Users" 2,
        Component.table s usersTableColumns,
        Component.div
          [ Component.link [ Component.button "Add User" ]
              (some (Event.goto "/user/add/")) ]
          none ] ]

/-- The profile page rendered by `user_profile` for a found user. -/
def profilePage (user : User) (user_id : Int) : List Component :=
  [ Component.page
      [ Component.heading user.name 2,
        Component.link [ Component.textC "Back" ] (some Event.back),
        Component.details user,
        Component.div
          [ Component.heading "Delete User?" 4,
            Component.modelForm
              ("/api/user/" ++ toString user_id ++ "/delete/")
              (some "text-left") ]
          (some "card p-4 col-4") ] ]

/-- `GET /api/user/{user_id}/` (`user_profile`): look the row up by id;
raise `HTTPException(404)` when absent, else render the profile page
headed by the name of the user. -/
def user_profile (s : Store) (user_id : Int) : Except Nat (List Component) :=
  match Store.get s user_id with
  | none => Except.error 404
  | some user => Except.ok (profilePage user user_id)

/-- `POST /api/user/{user_id}/delete/` (`delete_user`): look the row up
by id; when present delete it and commit, when absent do nothing; either
way answer with a navigation event back to `/`.  The submitted
`DeleteUserForm` is accepted but never inspected. -/
def delete_user (s : Store) (user_id : Int) (form : DeleteUserForm) :
    Store × FormResponse :=
  let s' : Store :=
    match Store.get s user_id with
    | none => s
    | some _ => s.filter (fun u => !(u.id == user_id))
  (s', ⟨Event.goto "/"⟩)

/-- The heading text of a single-page payload, when its first component
is a heading. -/
def pageHeading : List Component → Option String
  | [Component.page (Component.heading t _ :: _)] => some t
  | _ => none

/-- The row data of the first table component of a single-page payload. -/
def tableData : List Component → Option (List User)
  | [Component.page cs] =>
    cs.findSome? (fun comp =>
      match comp with
      | Component.table data _ => some data
      | _ => none)
  | _ => none

/-! ## Helper lemmas about the store embedding -/

lemma le_foldl_max (s : Store) (a : Int) :
    a ≤ s.foldl (fun m u => max m u.id) a := by
  induction s generalizing a with
  | nil => exact le_refl a
  | cons v t ih => exact le_trans (le_max_left a v.id) (ih (max a v.id))

lemma id_le_foldl_max (s : Store) (a : Int) (u : User) (hu : u ∈ s) :
    u.id ≤ s.foldl (fun m v => max m v.id) a := by
  induction s generalizing a with
  | nil => cases hu
  | cons v t ih =>
    rcases List.mem_cons.mp hu with h | h
    · subst h
      exact le_trans (le_max_right a u.id) (le_foldl_max t (max a u.id))
    · exact ih (max a v.id) h

lemma get_no_hit (s : Store) : s.find? (fun u => u.id == nextId s) = none := by
  refine List.find?_eq_none.mpr (fun u hu => ?_)
  have h1 := id_le_foldl_max s 0 u hu
  simp only [beq_iff_eq, nextId]
  intro he
  omega

lemma get_append_of_some (s t : Store) (i : Int) (u : User)
    (h : Store.get s i = some u) : Store.get (s ++ t) i = some u := by
  unfold Store.get at h ⊢
  rw [List.find?_append, h]
  rfl

lemma get_filter_self (s : Store) (uid : Int) :
    Store.get (s.filter (fun u => !(u.id == uid))) uid = none := by
  refine List.find?_eq_none.mpr (fun u hu => ?_)
  have h2 := (List.mem_filter.mp hu).2
  simp only [Bool.not_eq_eq_eq_not, Bool.not_true] at h2
  simp [h2]

lemma find?_filter_of_imp (l : List User) (p q : User → Bool)
    (h : ∀ x, p x = true → q x = true) :
    (l.filter q).find? p = l.find? p := by
  induction l with
  | nil => rfl
  | cons v t ih =>
    cases hq : q v with
    | true =>
      rw [List.filter_cons_of_pos hq]
      cases hp : p v with
      | true => rw [List.find?_cons_of_pos t hp, List.find?_cons_of_pos (t.filter q) hp]
      | false =>
        rw [List.find?_cons_of_neg t (by simp [hp]),
          List.find?_cons_of_neg (t.filter q) (by simp [hp])]
        exact ih
    | false =>
      cases hp : p v with
      | true => exact absurd (h v hp) (by simp [hq])
      | false =>
        rw [List.filter_cons_of_neg (by simp [hq]),
          List.find?_cons_of_neg t (by simp [hp])]
        exact ih

lemma get_filter_ne (s : Store) (uid i : Int) (h : i ≠ uid) :
    Store.get (s.filter (fun u => !(u.id == uid))) i = Store.get s i := by
  refine find?_filter_of_imp s _ _ (fun x hx => ?_)
  have hxi : x.id = i := by simpa using hx
  simp [hxi, h]

/-! ## Helper lemmas about the seeding loop -/

lemma seedStep_of_isSome (st : Store) (u : User)
    (h : (Store.get st u.id).isSome) : seedStep st u = st := by
  cases hg : Store.get st u.id with
  | some v => simp [seedStep, hg]
  | none => rw [hg] at h; simp at h

lemma get_seedStep_of_some (st : Store) (w : User) (i : Int) (u : User)
    (h : Store.get st i = some u) :
    Store.get (seedStep st w) i = some u := by
  cases hg : Store.get st w.id with
  | some v => simpa [seedStep, hg] using h
  | none =>
    simp only [seedStep, hg]
    exact get_append_of_some st [w] i u h

lemma get_seedStep_isSome (st : Store) (w : User) (i : Int)
    (h : (Store.get st i).isSome) : (Store.get (seedStep st w) i).isSome := by
  obtain ⟨u, hu⟩ := Option.isSome_iff_exists.mp h
  rw [get_seedStep_of_some st w i u hu]
  rfl

lemma get_seedStep_self_isSome (st : Store) (u : User) :
    (Store.get (seedStep st u) u.id).isSome := by
  cases hg : Store.get st u.id with
  | some v => simp [seedStep, hg]
  | none =>
    simp only [seedStep, hg]
    unfold Store.get at hg ⊢
    rw [List.find?_append, hg, Option.none_or]
    simp [List.find?]

lemma get_seedStep_ne (st : Store) (u : User) (i : Int) (h : u.id ≠ i) :
    Store.get (seedStep st u) i = Store.get st i := by
  cases hg : Store.get st u.id with
  | some v => simp [seedStep, hg]
  | none =>
    simp only [seedStep, hg]
    unfold Store.get
    rw [List.find?_append]
    have hb : (u.id == i) = false := by simp [h]
    have h1 : List.find? (fun v => v.id == i) [u] = none := by
      simp [List.find?, hb]
    rw [h1]
    cases List.find? (fun v => v.id == i) st <;> rfl

lemma foldl_seedStep_get_some (l : List User) (s : Store) (i : Int) (u : User)
    (h : Store.get s i = some u) :
    Store.get (l.foldl seedStep s) i = some u := by
  induction l generalizing s with
  | nil => exact h
  | cons v t ih => exact ih (seedStep s v) (get_seedStep_of_some s v i u h)

lemma foldl_seedStep_fixed (l : List User) (s : Store)
    (h : ∀ u ∈ l, (Store.get s u.id).isSome) :
    l.foldl seedStep s = s := by
  induction l with
  | nil => rfl
  | cons v t ih =>
    have h1 : seedStep s v = s := seedStep_of_isSome s v (h v (by simp))
    simp only [List.foldl_cons, h1]
    exact ih (fun u hu => h u (List.mem_cons_of_mem v hu))

lemma lifespan_unfold (s : Store) :
    lifespan s =
      seedStep (seedStep (seedStep (seedStep s ⟨1, "John", ⟨1990, 1, 1⟩⟩)
        ⟨2, "Jack", ⟨1991, 1, 1⟩⟩) ⟨3, "Jill", ⟨1992, 1, 1⟩⟩)
        ⟨4, "Jane", ⟨1993, 1, 1⟩⟩ := rfl

lemma lifespan_seed_present (s : Store) (u : User) (hu : u ∈ seedUsers) :
    (Store.get (lifespan s) u.id).isSome := by
  simp only [seedUsers, List.mem_cons, List.not_mem_nil, or_false] at hu
  rcases hu with rfl | rfl | rfl | rfl <;> rw [lifespan_unfold]
  · exact get_seedStep_isSome _ _ _ (get_seedStep_isSome _ _ _
      (get_seedStep_isSome _ _ _ (get_seedStep_self_isSome s _)))
  · exact get_seedStep_isSome _ _ _ (get_seedStep_isSome _ _ _
      (get_seedStep_self_isSome _ _))
  · exact get_seedStep_isSome _ _ _ (get_seedStep_self_isSome _ _)
  · exact get_seedStep_self_isSome _ _

lemma lifespan_idem (s : Store) : lifespan (lifespan s) = lifespan s :=
  foldl_seedStep_fixed seedUsers (lifespan s)
    (fun u hu => lifespan_seed_present s u hu)

lemma countP_seedStep_ne (st : Store) (u : User) (i : Int) (h : u.id ≠ i) :
    (seedStep st u).countP (fun v => v.id == i) =
      st.countP (fun v => v.id == i) := by
  cases hg : Store.get st u.id with
  | some v => simp [seedStep, hg]
  | none =>
    have hb : (u.id == i) = false := by simp [h]
    simp [seedStep, hg, List.countP_append, List.countP_cons, hb]

lemma countP_seedStep_self (st : Store) (u : User) :
    (seedStep st u).countP (fun v => v.id == u.id) =
      if (Store.get st u.id).isSome then st.countP (fun v => v.id == u.id)
      else st.countP (fun v => v.id == u.id) + 1 := by
  cases hg : Store.get st u.id with
  | some v => simp [seedStep, hg]
  | none => simp [seedStep, hg, List.countP_append, List.countP_cons]

lemma countP_eq_zero_of_get_none (s : Store) (i : Int)
    (h : Store.get s i = none) : s.countP (fun v => v.id == i) = 0 :=
  List.countP_eq_zero.mpr (List.find?_eq_none.mp h)

lemma lifespan_countP_seed (s : Store) (u : User) (hu : u ∈ seedUsers) :
    (lifespan s).countP (fun v => v.id == u.id) =
      if (Store.get s u.id).isSome then s.countP (fun v => v.id == u.id)
      else s.countP (fun v => v.id == u.id) + 1 := by
  simp only [seedUsers, List.mem_cons, List.not_mem_nil, or_false] at hu
  rcases hu with rfl | rfl | rfl | rfl <;> rw [lifespan_unfold]
  · rw [countP_seedStep_ne _ _ _ (by decide), countP_seedStep_ne _ _ _ (by decide),
      countP_seedStep_ne _ _ _ (by decide), countP_seedStep_self]
  · rw [countP_seedStep_ne _ _ _ (by decide), countP_seedStep_ne _ _ _ (by decide),
      countP_seedStep_self, get_seedStep_ne _ _ _ (by decide),
      countP_seedStep_ne _ _ _ (by decide)]
  · rw [countP_seedStep_ne _ _ _ (by decide), countP_seedStep_self,
      get_seedStep_ne _ _ _ (by decide), get_seedStep_ne _ _ _ (by decide),
      countP_seedStep_ne _ _ _ (by decide), countP_seedStep_ne _ _ _ (by decide)]
  · rw [countP_seedStep_self, get_seedStep_ne _ _ _ (by decide),
      get_seedStep_ne _ _ _ (by decide), get_seedStep_ne _ _ _ (by decide),
      countP_seedStep_ne _ _ _ (by decide), countP_seedStep_ne _ _ _ (by decide),
      countP_seedStep_ne _ _ _ (by decide)]

/-! ## The claims -/

/-- C1: for every valid form input, the add-user submission handler
inserts exactly one new `User` row — the user count grows by exactly one,
and the new row (carrying the submitted name and dob) is retrievable by
the id the store assigned to it. -/
theorem add_user_inserts_one (s : Store) (form : UserForm) :
    (add_user s form).1.length = s.length + 1 ∧
    Store.get (add_user s form).1 (nextId s) =
      some ⟨nextId s, form.name, form.dob⟩ := by
  constructor
  · simp [add_user]
  · show Store.get (s ++ [⟨nextId s, form.name, form.dob⟩]) (nextId s) = _
    unfold Store.get
    rw [List.find?_append, get_no_hit s, Option.none_or]
    simp [List.find?]

/-- C2: for every user id not present in the store, the detail handler
`GET /api/user/\x7bid\x7d/` fails with HTTP 404 and returns no page
payload. -/
theorem user_profile_absent_404 (s : Store) (uid : Int)
    (h : Store.get s uid = none) :
    user_profile s uid = Except.error 404 := by
  simp [user_profile, h]

theorem user_profile_absent_404_witness :
    Store.get ([] : Store) 99 = none ∧
    user_profile ([] : Store) 99 = Except.error 404 :=
  ⟨rfl, user_profile_absent_404 ([] : Store) 99 rfl⟩

/-- C3: deleting an id that is present removes the row — a subsequent
detail lookup of the same id returns 404. -/
theorem delete_then_profile_404 (s : Store) (uid : Int)
    (f : DeleteUserForm) (u : User) (h : Store.get s uid = some u) :
    user_profile (delete_user s uid f).1 uid = Except.error 404 := by
  have h1 : (delete_user s uid f).1 = s.filter (fun v => !(v.id == uid)) := by
    simp [delete_user, h]
  rw [h1]
  simp [user_profile, get_filter_self]

theorem delete_then_profile_404_witness :
    Store.get seedUsers 2 = some ⟨2, "Jack", ⟨1991, 1, 1⟩⟩ ∧
    user_profile (delete_user seedUsers 2 ⟨true⟩).1 2 = Except.error 404 :=
  ⟨rfl, delete_then_profile_404 seedUsers 2 ⟨true⟩ ⟨2, "Jack", ⟨1991, 1, 1⟩⟩ rfl⟩

/-- C4: the startup seeding is idempotent — running `lifespan` twice is
the same as running it once; when a seed id is already present the run
leaves the number of rows with that id unchanged; and starting from any
store with at most one row per seed id, two runs still leave at most one
row with that id. -/
theorem seeding_idempotent (s : Store) :
    lifespan (lifespan s) = lifespan s ∧
    (∀ u ∈ seedUsers, (Store.get s u.id).isSome →
      (lifespan s).countP (fun v => v.id == u.id) =
        s.countP (fun v => v.id == u.id)) ∧
    (∀ u ∈ seedUsers, s.countP (fun v => v.id == u.id) ≤ 1 →
      (lifespan (lifespan s)).countP (fun v => v.id == u.id) ≤ 1) := by
  refine ⟨lifespan_idem s, ?_, ?_⟩
  · intro u hu h
    rw [lifespan_countP_seed s u hu, if_pos h]
  · intro u hu h
    rw [lifespan_idem s, lifespan_countP_seed s u hu]
    by_cases hc : (Store.get s u.id).isSome
    · rw [if_pos hc]; exact h
    · rw [if_neg hc]
      have h0 := countP_eq_zero_of_get_none s u.id
        (Option.not_isSome_iff_eq_none.mp hc)
      omega

theorem seeding_idempotent_witness :
    ((⟨1, "John", ⟨1990, 1, 1⟩⟩ : User) ∈ seedUsers ∧
      ([] : Store).countP (fun v => v.id == (1 : Int)) ≤ 1) ∧
    (lifespan (lifespan ([] : Store))).countP (fun v => v.id == (1 : Int)) ≤ 1 :=
  ⟨⟨by decide, by decide⟩,
    (seeding_idempotent ([] : Store)).2.2 ⟨1, "John", ⟨1990, 1, 1⟩⟩
      (by decide) (by decide)⟩

/-- C5: deleting an id that is absent succeeds without error and leaves
the store completely unchanged, still answering the navigation event. -/
theorem delete_absent_noop (s : Store) (uid : Int) (f : DeleteUserForm)
    (h : Store.get s uid = none) :
    delete_user s uid f = (s, ⟨Event.goto "/"⟩) := by
  simp [delete_user, h]

theorem delete_absent_noop_witness :
    Store.get seedUsers 77 = none ∧
    delete_user seedUsers 77 ⟨false⟩ = (seedUsers, ⟨Event.goto "/"⟩) :=
  ⟨rfl, delete_absent_noop seedUsers 77 ⟨false⟩ rfl⟩

/-- C6: the delete handler never branches on the confirmation flag — two
delete submissions for the same id that differ only in the `confirm`
value produce the same store and the same response. -/
theorem delete_ignores_confirm_flag (s : Store) (uid : Int)
    (f1 f2 : DeleteUserForm) :
    delete_user s uid f1 = delete_user s uid f2 := rfl

/-- C7: for every id present in the store, the detail handler returns a
page whose heading text is exactly the name of that user. -/
theorem user_profile_heading_is_name (s : Store) (uid : Int) (u : User)
    (h : Store.get s uid = some u) :
    ∃ cs, user_profile s uid = Except.ok cs ∧ pageHeading cs = some u.name := by
  refine ⟨profilePage u uid, ?_, rfl⟩
  simp [user_profile, h]

theorem user_profile_heading_is_name_witness :
    Store.get seedUsers 3 = some ⟨3, "Jill", ⟨1992, 1, 1⟩⟩ ∧
    ∃ cs, user_profile seedUsers 3 = Except.ok cs ∧
      pageHeading cs = some "Jill" :=
  ⟨rfl, user_profile_heading_is_name seedUsers 3 ⟨3, "Jill", ⟨1992, 1, 1⟩⟩ rfl⟩

/-- C8: the concrete scenario — seeding an empty store yields exactly the
four users John/Jack/Jill/Jane with their dobs and the list endpoint
shows all 4; adding Amy (dob 1994-01-01) makes the list show 5 users
including Amy (assigned id 5); deleting id 5 with confirm `true` makes
the list show the original 4 again. -/
theorem concrete_scenario :
    tableData (users_table (lifespan ([] : Store))) = some seedUsers ∧
    seedUsers = [⟨1, "John", ⟨1990, 1, 1⟩⟩, ⟨2, "Jack", ⟨1991, 1, 1⟩⟩,
      ⟨3, "Jill", ⟨1992, 1, 1⟩⟩, ⟨4, "Jane", ⟨1993, 1, 1⟩⟩] ∧
    (lifespan ([] : Store)).length = 4 ∧
    (add_user (lifespan ([] : Store)) ⟨"Amy", ⟨1994, 1, 1⟩⟩).1.length = 5 ∧
    (⟨5, "Amy", ⟨1994, 1, 1⟩⟩ : User) ∈
      (add_user (lifespan ([] : Store)) ⟨"Amy", ⟨1994, 1, 1⟩⟩).1 ∧
    tableData (users_table
        (add_user (lifespan ([] : Store)) ⟨"Amy", ⟨1994, 1, 1⟩⟩).1) =
      some (seedUsers ++ [⟨5, "Amy", ⟨1994, 1, 1⟩⟩]) ∧
    (delete_user (add_user (lifespan ([] : Store)) ⟨"Amy", ⟨1994, 1, 1⟩⟩).1
        5 ⟨true⟩).1 = seedUsers ∧
    (delete_user (add_user (lifespan ([] : Store)) ⟨"Amy", ⟨1994, 1, 1⟩⟩).1
        5 ⟨true⟩).1.length = 4 := by
  decide

/-- C9: no handler updates an existing row in place — any row present
before running the add, seed, or delete operation is found unchanged
afterwards under its id (for delete, whenever any row is still found
under that id it is the original one); the remaining handlers read the
store without producing a new one. -/
theorem no_update_in_place (s : Store) (form : UserForm) (uid : Int)
    (f : DeleteUserForm) (i : Int) (u : User) (h : Store.get s i = some u) :
    Store.get (add_user s form).1 i = some u ∧
    Store.get (lifespan s) i = some u ∧
    (∀ v, Store.get (delete_user s uid f).1 i = some v → v = u) := by
  refine ⟨?_, ?_, ?_⟩
  · exact get_append_of_some s _ i u h
  · exact foldl_seedStep_get_some seedUsers s i u h
  · intro v hv
    cases hg : Store.get s uid with
    | none =>
      have h1 : (delete_user s uid f).1 = s := by simp [delete_user, hg]
      rw [h1, h] at hv
      exact (Option.some.inj hv).symm
    | some w =>
      have h1 : (delete_user s uid f).1 =
          s.filter (fun x => !(x.id == uid)) := by
        simp [delete_user, hg]
      rw [h1] at hv
      by_cases hi : i = uid
      · rw [hi, get_filter_self s uid] at hv
        cases hv
      · rw [get_filter_ne s uid i hi, h] at hv
        exact (Option.some.inj hv).symm

theorem no_update_in_place_witness :
    Store.get seedUsers 1 = some ⟨1, "John", ⟨1990, 1, 1⟩⟩ ∧
    Store.get (add_user seedUsers ⟨"Amy", ⟨1994, 1, 1⟩⟩).1 1 =
      some ⟨1, "John", ⟨1990, 1, 1⟩⟩ :=
  ⟨rfl, (no_update_in_place seedUsers ⟨"Amy", ⟨1994, 1, 1⟩⟩ 2 ⟨true⟩ 1
    ⟨1, "John", ⟨1990, 1, 1⟩⟩ rfl).1⟩

/-- C10: the response of the delete handler is independent of whether the
target row existed — every delete submission, on every store, produces
the same navigation event back to `/`. -/
theorem delete_response_reveals_nothing (s1 s2 : Store) (uid1 uid2 : Int)
    (f1 f2 : DeleteUserForm) :
    (delete_user s1 uid1 f1).2 = (delete_user s2 uid2 f2).2 ∧
    (delete_user s1 uid1 f1).2 = ⟨Event.goto "/"⟩ :=
  ⟨rfl, rfl⟩

end FastUIDemo
